import Mathlib

/-!
Verification development for the swisstronik evm-module core: a shallow
embedding of the SGX enclave connector (x/evm/keeper/sgxvm_connector.go),
the SGXVM transaction pipeline (keeper.ApplySGXVMTransaction and
keeper.ApplySGXVMMessage), the gas-refund helper, and the deoxys state
encryption layer, together with theorems about the behaviour of these
functions.

Modelling conventions:
- Go byte slices are `List Nat` (each element one byte value).
- Ethereum addresses, storage indices and code hashes enter the handlers
  already decoded (common.BytesToAddress / common.BytesToHash collapse the
  wire bytes to a fixed-width value; we model that value as a `Nat` for
  addresses and indices and as a `List Nat` for code hashes).
- Go machine integers: uint64 values are `Nat` with an explicit reduction
  mod 2^64 where the source truncates (big.Int.Uint64); big.Int values
  produced by SetBytes are non-negative and modelled as `Nat`.
- Fallible Go functions return `Except String` values; a Go runtime panic
  (nil-interface type assertion, integer division by zero) is modelled by
  an explicit panic constructor of the outcome type, distinct from an
  ordinary returned error.
- Keeper store primitives whose bodies are not part of the extracted
  sources (SetCode, SetState, SetAccount, DeleteAccount, the account
  lookups) are modelled from the specification, as flagged in their doc
  comments.
-/

/-- Byte strings (Go []byte). -/
abbrev Bytes := List Nat

/-- Association-list write: replace the first binding of the key, or append
a fresh binding. Models a point write to a prefixed KV store. -/
def setKV {α β : Type} [DecidableEq α] (l : List (α × β)) (k : α) (v : β) :
    List (α × β) :=
  match l with
  | [] => [(k, v)]
  | (k', v') :: t => if k' = k then (k, v) :: t else (k', v') :: setKV t k v

/-- Association-list point read. Models a point read from a KV store;
absence is `none`, never an error. -/
def getKV {α β : Type} [DecidableEq α] (l : List (α × β)) (k : α) : Option β :=
  match l with
  | [] => none
  | (k', v') :: t => if k' = k then some v' else getKV t k

/-- Association-list delete: removes every binding of the key. -/
def delKV {α β : Type} [DecidableEq α] (l : List (α × β)) (k : α) :
    List (α × β) :=
  l.filter (fun p => decide (p.1 ≠ k))

theorem getKV_setKV_self {α β : Type} [DecidableEq α]
    (l : List (α × β)) (k : α) (v : β) : getKV (setKV l k v) k = some v := by
  induction l with
  | nil => simp [setKV, getKV]
  | cons h t ih =>
      obtain ⟨k', v'⟩ := h
      by_cases hk : k' = k
      · simp [setKV, hk, getKV]
      · simp [setKV, hk, getKV, ih]

theorem getKV_setKV_ne {α β : Type} [DecidableEq α]
    (l : List (α × β)) (k k' : α) (v : β) (hne : k' ≠ k) :
    getKV (setKV l k v) k' = getKV l k' := by
  induction l with
  | nil => simp [setKV, getKV, Ne.symm hne]
  | cons h t ih =>
      obtain ⟨k₀, v₀⟩ := h
      by_cases hk : k₀ = k
      · subst hk
        simp [setKV, getKV, hne, Ne.symm hne]
      · by_cases hk' : k₀ = k'
        · subst hk'
          simp [setKV, hk, getKV]
        · simp [setKV, hk, getKV, hk', ih]

theorem getKV_delKV_self {α β : Type} [DecidableEq α]
    (l : List (α × β)) (k : α) : getKV (delKV l k) k = none := by
  induction l with
  | nil => simp [delKV, getKV]
  | cons h t ih =>
      obtain ⟨k₀, v₀⟩ := h
      by_cases hk : k₀ = k
      · simpa [delKV, hk] using ih
      · simpa [delKV, hk, getKV] using ih

theorem getKV_delKV_ne {α β : Type} [DecidableEq α]
    (l : List (α × β)) (k k' : α) (hne : k' ≠ k) :
    getKV (delKV l k) k' = getKV l k' := by
  induction l with
  | nil => simp [delKV, getKV]
  | cons h t ih =>
      obtain ⟨k₀, v₀⟩ := h
      by_cases hk : k₀ = k
      · subst hk
        simpa [delKV, getKV, Ne.symm hne] using ih
      · by_cases hk' : k₀ = k'
        · subst hk'
          simp [delKV, getKV, hk]
        · simpa [delKV, getKV, hk, hk'] using ih

/-- Big-endian byte decoding (big.Int.SetBytes). -/
def bytesToNat (b : Bytes) : Nat := b.foldl (fun acc x => acc * 256 + x) 0

/-- Fuel-assisted big-endian encoder for arbitrary-precision naturals. -/
def natToBEBytesAux : Nat → Nat → Bytes
  | 0, _ => []
  | _ + 1, 0 => []
  | f + 1, n => natToBEBytesAux f (n / 256) ++ [n % 256]

/-- Minimal big-endian byte encoding (big.Int.Bytes): empty for zero. -/
def natToBEBytes (n : Nat) : Bytes := natToBEBytesAux n n

/-- Fixed eight-byte big-endian encoding (sdk.Uint64ToBigEndian). -/
def uint64ToBigEndian (n : Nat) : Bytes :=
  (List.range 8).map (fun i => n / 256 ^ (7 - i) % 256)

/-- Ethereum consensus account record as stored by the module
(x/evm/statedb/state_object.go): nonce, balance and code hash. A `none`
code hash models the Go nil slice set by the connector for fresh accounts. -/
structure Account where
  nonce : Nat
  balance : Nat
  codeHash : Option Bytes
deriving DecidableEq, Repr

/-- The confidential state store contents visible to the connector: the
per-address account records, the content-addressed code table, and the
contract storage cells keyed by (address, index). -/
structure EvmState where
  accounts : List (Nat × Account)
  codeStore : List (Bytes × Bytes)
  storage : List ((Nat × Nat) × Bytes)
deriving DecidableEq, Repr

/-- Modelled from the spec: Keeper.GetAccount (x/evm/keeper/statedb.go is
not among the extracted sources) performs the account lookup;
spec 4.1: get_account(addr) returns Option, absence is None, never an
error. -/
def Keeper.GetAccount (s : EvmState) (addr : Nat) : Option Account :=
  getKV s.accounts addr

/-- Modelled from the spec: Keeper.GetAccountWithoutBalance is the same
lookup restricted to the nonce/code-hash part; existence and code hash
agree with Keeper.GetAccount. -/
def Keeper.GetAccountWithoutBalance (s : EvmState) (addr : Nat) :
    Option Account :=
  getKV s.accounts addr

/-- Modelled from the spec: Keeper.SetCode stores a content-addressed code
blob under its hash (spec 4.1: set_code is content-addressed, idempotent). -/
def Keeper.SetCode (s : EvmState) (codeHash code : Bytes) : EvmState :=
  { s with codeStore := setKV s.codeStore codeHash code }

/-- Modelled from the spec: Keeper.GetCode reads a code blob by hash,
empty if absent (spec 4.1). -/
def Keeper.GetCode (s : EvmState) (codeHash : Bytes) : Bytes :=
  (getKV s.codeStore codeHash).getD []

/-- Modelled from the spec: Keeper.SetState writes a storage cell; an
empty value deletes the cell (spec 4.1: writing the zero value is
equivalent to deletion). The connector passes nil for removal. -/
def Keeper.SetState (s : EvmState) (addr index : Nat) (value : Bytes) :
    EvmState :=
  if value.isEmpty then
    { s with storage := delKV s.storage (addr, index) }
  else
    { s with storage := setKV s.storage (addr, index) value }

/-- The 32 zero bytes of an absent storage word (common.Hash zero value). -/
def zeroWord : Bytes := List.replicate 32 0

/-- Modelled from the spec: Keeper.GetState reads a storage cell, zero
word if absent (spec 4.1: zero-default semantics). -/
def Keeper.GetState (s : EvmState) (addr index : Nat) : Bytes :=
  (getKV s.storage (addr, index)).getD zeroWord

/-- Modelled from the spec: Keeper.SetAccount persists an account record
(spec 4.1: set_account; its InvalidBalance failure concerns negative
balances, which cannot arise from the big-endian byte decoding used by the
connector, so the stored balance here is a Nat and the write succeeds). -/
def Keeper.SetAccount (s : EvmState) (addr : Nat) (acct : Account) :
    Except String EvmState :=
  .ok { s with accounts := setKV s.accounts addr acct }

/-- Modelled from the spec: Keeper.DeleteAccount (spec 4.1:
destroy_account clears balance, nonce, code pointer, and all storage cells
for the address; idempotent on a non-existent address). Behaviour pinned
by TestDeleteAccount in x/evm/keeper/statedb_test.go: no error for an
externally owned account, a missing address, or a deployed contract. -/
def Keeper.DeleteAccount (s : EvmState) (addr : Nat) :
    Except String EvmState :=
  .ok { s with
        accounts := delKV s.accounts addr,
        storage := s.storage.filter (fun p => decide (p.1.1 ≠ addr)) }

/-- Block-level facts the connector reads from the sdk.Context
(HeaderHash, BlockTime, BlockHeight) and from the keeper (ChainID). -/
structure ConnCtx where
  headerHash : Bytes
  blockTime : Nat
  blockHeight : Nat
  chainId : Nat
deriving DecidableEq, Repr

/-- The decoded CosmosRequest oneof: one constructor per catalogued wire
request variant (sgxvm_connector.go, Query switch), with the fields each
handler reads. Addresses and storage indices enter already collapsed by
common.BytesToAddress / common.BytesToHash. -/
inductive CosmosReq
  | getAccount (address : Nat)
  | insertAccount (address : Nat) (balance : Bytes) (nonce : Bytes)
  | containsKey (key : Nat)
  | accountCode (address : Nat)
  | storageCell (address : Nat) (index : Nat)
  | insertStorageCell (address : Nat) (index : Nat) (value : Bytes)
  | insertAccountCode (address : Nat) (code : Bytes)
  | removeStorageCell (address : Nat) (index : Nat)
  | remove (address : Nat)
  | blockHash (number : Bytes)
  | blockTimestamp
  | blockNumber
  | chainId
deriving DecidableEq, Repr

/-- The typed content of the protobuf response each handler marshals. -/
inductive ConnResp
  | getAccount (balance : Bytes) (nonce : Bytes)
  | insertAccount
  | containsKey (contains : Bool)
  | accountCode (code : Bytes)
  | storageCell (value : Bytes)
  | insertStorageCell
  | insertAccountCode
  | removeStorageCell
  | remove
  | blockHash (hash : Bytes)
  | blockTimestamp (timestamp : Bytes)
  | blockNumber (number : Bytes)
  | chainId (id : Bytes)
deriving DecidableEq, Repr

/-- Outcome of one connector call: a marshalled response, a returned Go
error (nil response bytes), or a Go runtime panic. -/
inductive ConnOutcome
  | ok (resp : ConnResp)
  | fail (msg : String)
  | panic (msg : String)
deriving DecidableEq, Repr

/-- Connector.GetAccount (sgxvm_connector.go lines 77-94): absent account
yields empty balance and nonce byte strings, present account yields the
minimal big-endian balance bytes and the eight-byte big-endian nonce. -/
def Connector.GetAccount (s : EvmState) (address : Nat) :
    ConnOutcome × EvmState :=
  match Keeper.GetAccount s address with
  | none => (.ok (.getAccount [] []), s)
  | some account =>
      (.ok (.getAccount (natToBEBytes account.balance)
        (uint64ToBigEndian account.nonce)), s)

/-- Connector.ContainsKey (sgxvm_connector.go lines 97-102): existence
check through Keeper.GetAccountWithoutBalance. -/
def Connector.ContainsKey (s : EvmState) (key : Nat) :
    ConnOutcome × EvmState :=
  (.ok (.containsKey (Keeper.GetAccountWithoutBalance s key).isSome), s)

/-- Connector.InsertAccountCode (sgxvm_connector.go lines 106-128): the
code blob is written content-addressed under keccak256(code) before any
existence check; the subsequent Go type assertion
cosmosAccount.(ethermint.EthAccountI) panics on the nil interface returned
for a missing account, so the explicit account-does-not-exist error
return below it is unreachable; for an existing account SetCodeHash only
mutates the in-memory account object (the source marks this with a TODO),
so no account-to-code-hash link reaches the store. The keccak256 hash
function is passed as a parameter. -/
def Connector.InsertAccountCode (hash : Bytes → Bytes) (s : EvmState)
    (address : Nat) (code : Bytes) : ConnOutcome × EvmState :=
  let codeHash := hash code
  let s1 := Keeper.SetCode s codeHash code
  match getKV s1.accounts address with
  | none => (.panic "interface conversion: types.AccountI is nil", s1)
  | some _ => (.ok .insertAccountCode, s1)

/-- Connector.RemoveStorageCell (sgxvm_connector.go lines 131-139):
SetState with a nil value, deleting the cell. -/
def Connector.RemoveStorageCell (s : EvmState) (address index : Nat) :
    ConnOutcome × EvmState :=
  (.ok .removeStorageCell, Keeper.SetState s address index [])

/-- Connector.Remove (sgxvm_connector.go lines 142-150): account
destruction through Keeper.DeleteAccount, wrapping any error. -/
def Connector.Remove (s : EvmState) (address : Nat) :
    ConnOutcome × EvmState :=
  match Keeper.DeleteAccount s address with
  | .error e => (.fail ("failed to remove account: " ++ e), s)
  | .ok s' => (.ok .remove, s')

/-- Connector.BlockHash (sgxvm_connector.go lines 153-157): returns the
context header hash; the Number field of the request is not read. -/
def Connector.BlockHash (ctx : ConnCtx) (s : EvmState) (_number : Bytes) :
    ConnOutcome × EvmState :=
  (.ok (.blockHash ctx.headerHash), s)

/-- Connector.BlockTimestamp (sgxvm_connector.go lines 160-164). -/
def Connector.BlockTimestamp (ctx : ConnCtx) (s : EvmState) :
    ConnOutcome × EvmState :=
  (.ok (.blockTimestamp (natToBEBytes ctx.blockTime)), s)

/-- Connector.BlockNumber (sgxvm_connector.go lines 167-171). -/
def Connector.BlockNumber (ctx : ConnCtx) (s : EvmState) :
    ConnOutcome × EvmState :=
  (.ok (.blockNumber (natToBEBytes ctx.blockHeight)), s)

/-- Connector.ChainId (sgxvm_connector.go lines 174-178). -/
def Connector.ChainId (ctx : ConnCtx) (s : EvmState) :
    ConnOutcome × EvmState :=
  (.ok (.chainId (natToBEBytes ctx.chainId)), s)

/-- Connector.InsertStorageCell (sgxvm_connector.go lines 181-191). -/
def Connector.InsertStorageCell (s : EvmState) (address index : Nat)
    (value : Bytes) : ConnOutcome × EvmState :=
  (.ok .insertStorageCell, Keeper.SetState s address index value)

/-- Connector.GetStorageCell (sgxvm_connector.go lines 194-203). -/
def Connector.GetStorageCell (s : EvmState) (address index : Nat) :
    ConnOutcome × EvmState :=
  (.ok (.storageCell (Keeper.GetState s address index)), s)

/-- Connector.GetAccountCode (sgxvm_connector.go lines 207-216): empty
response for a missing account, otherwise the code blob stored under the
account code hash (a nil code hash reads as the empty hash key). -/
def Connector.GetAccountCode (s : EvmState) (address : Nat) :
    ConnOutcome × EvmState :=
  match Keeper.GetAccountWithoutBalance s address with
  | none => (.ok (.accountCode []), s)
  | some account =>
      (.ok (.accountCode (Keeper.GetCode s (account.codeHash.getD []))), s)

/-- Connector.InsertAccount (sgxvm_connector.go lines 221-254): decodes
balance and nonce from big-endian bytes (big.Int.SetBytes; the nonce is
then truncated by big.Int.Uint64), and stores the account keeping the
preexisting code hash when the address already has an account, nil code
hash otherwise. -/
def Connector.InsertAccount (s : EvmState) (address : Nat)
    (balance nonce : Bytes) : ConnOutcome × EvmState :=
  let account := Keeper.GetAccountWithoutBalance s address
  let balanceVal := bytesToNat balance
  let nonceVal := bytesToNat nonce % 2 ^ 64
  let accountData : Account :=
    match account with
    | none => { nonce := nonceVal, balance := balanceVal, codeHash := none }
    | some acct =>
        { nonce := nonceVal, balance := balanceVal, codeHash := acct.codeHash }
  match Keeper.SetAccount s address accountData with
  | .error e => (.fail ("Cannot set account: " ++ e), s)
  | .ok s' => (.ok .insertAccount, s')

/-- Result of decoding the wire bytes of one connector call:
protobuf decode failure, a decoded envelope whose oneof tag is not among
the catalogued variants (the Go switch falls through), or a recognized
request. -/
inductive WireDecode
  | decodeFailure
  | unrecognized
  | req (r : CosmosReq)
deriving DecidableEq, Repr

/-- Connector.Query (sgxvm_connector.go lines 23-73): decode, then route
by tag; a decode failure returns the proto error and an envelope with no
recognized variant returns the wrong-query error, in both cases with no
response payload and without touching the state store. -/
def Connector.Query (hash : Bytes → Bytes) (ctx : ConnCtx) (s : EvmState)
    (w : WireDecode) : ConnOutcome × EvmState :=
  match w with
  | .decodeFailure => (.fail "proto: cannot parse invalid wire-format data", s)
  | .unrecognized => (.fail "wrong query received", s)
  | .req r =>
      match r with
      | .getAccount address => Connector.GetAccount s address
      | .insertAccount address balance nonce =>
          Connector.InsertAccount s address balance nonce
      | .containsKey key => Connector.ContainsKey s key
      | .accountCode address => Connector.GetAccountCode s address
      | .storageCell address index => Connector.GetStorageCell s address index
      | .insertStorageCell address index value =>
          Connector.InsertStorageCell s address index value
      | .insertAccountCode address code =>
          Connector.InsertAccountCode hash s address code
      | .removeStorageCell address index =>
          Connector.RemoveStorageCell s address index
      | .remove address => Connector.Remove s address
      | .blockHash number => Connector.BlockHash ctx s number
      | .blockTimestamp => Connector.BlockTimestamp ctx s
      | .blockNumber => Connector.BlockNumber ctx s
      | .chainId => Connector.ChainId ctx s

/-- One emitted log as carried by the enclave execution result. -/
structure SGXLog where
  address : Nat
  topics : List Bytes
  data : Bytes
deriving DecidableEq, Repr

/-- The fields of MsgEthereumTxResponse the hook stage reads and writes:
gas used, return data, the VM error string (empty on success) and the
logs. -/
structure ExecResult where
  gasUsed : Nat
  ret : Bytes
  vmError : String
  logs : List SGXLog
deriving DecidableEq, Repr

/-- MsgEthereumTxResponse.Failed: true when VmError is non-empty. -/
def ExecResult.Failed (r : ExecResult) : Bool := !(r.vmError == "")

/-- Message of types.ErrPostTxProcessing, the generic error recorded when
a post-processing hook fails. -/
def errPostTxProcessing : String := "failed to execute post processing"

/-- Hook stage of Keeper.ApplySGXVMTransaction in the pipeline variant of
src/unnamed/part_001 (lines 816-833). Inputs: the hook setup (none when
k.hooks is nil, otherwise the state transformer PostTxProcessing runs on
the cache context, failing with an error or succeeding with the
hook-mutated state), the enclave execution result, the pre-dispatch
durable state, and the post-VM state of the context the VM ran on
(the cache context when hooks are present, the durable context itself
otherwise). Output: the final response, the resulting durable state, and
whether PostTxProcessing was invoked. When hooks are present the cache
context is committed only after the hooks succeed; every other path
leaves the durable state at its pre-dispatch value. -/
def ApplySGXVMTransactionHooks
    (hooks : Option (EvmState → Except String EvmState))
    (res : ExecResult) (base tmpAfterVM : EvmState) :
    ExecResult × EvmState × Bool :=
  if res.Failed then
    (res, if hooks.isSome then base else tmpAfterVM, false)
  else
    match hooks with
    | none => (res, tmpAfterVM, true)
    | some hookFn =>
        match hookFn tmpAfterVM with
        | .error _ =>
            ({ res with vmError := errPostTxProcessing, logs := [] }, base,
              true)
        | .ok afterHooks => (res, afterHooks, true)

/-- Hook stage of the ApplySGXVMTransaction variant embedded in
src/x/evm/statedb/state_object.go (lines 288-305). Identical to
ApplySGXVMTransactionHooks except that its guard reads
res.VmError != "" although its own comment says hooks are to be called
only when the transaction executed successfully. -/
def ApplySGXVMTransactionHooksLegacy
    (hooks : Option (EvmState → Except String EvmState))
    (res : ExecResult) (base tmpAfterVM : EvmState) :
    ExecResult × EvmState × Bool :=
  if !(res.vmError == "") then
    match hooks with
    | none => (res, tmpAfterVM, true)
    | some hookFn =>
        match hookFn tmpAfterVM with
        | .error _ =>
            ({ res with vmError := errPostTxProcessing, logs := [] }, base,
              true)
        | .ok afterHooks => (res, afterHooks, true)
  else
    (res, if hooks.isSome then base else tmpAfterVM, false)

/-- Modelled from the spec: keeper.GasToRefund is not among the extracted
sources (only its caller in ApplySGXVMMessage and TestGasToRefund in
x/evm/keeper/state_transition_test.go are). Spec 4.4 step 3: the refund
is min(accumulated_refund_counter, gas_used_before_refund /
refund_quotient), and a zero quotient is a programming-invariant
violation that aborts (in Go, the uint64 division traps) instead of
returning a value; the abort is modelled as `none`. -/
def GasToRefund (availableRefund gasConsumed refundQuotient : Nat) :
    Option Nat :=
  if refundQuotient = 0 then none
  else
    let refund := gasConsumed / refundQuotient
    if refund > availableRefund then some availableRefund else some refund

/-- params.RefundQuotientEIP3529, the constant quotient used by
ApplySGXVMMessage. -/
def refundQuotientEIP3529 : Nat := 5

/-- One reversible journal record kind (spec 3, Journal Entry). The
payloads are irrelevant to the claims below; only presence counts. -/
inductive JournalEntry
  | balanceChange
  | nonceChange
  | storageWrite
  | codeWrite
  | accountDestroyed
deriving DecidableEq, Repr

/-- The in-memory StateDB handed to the enclave connector by
ApplySGXVMMessage: the dirty world overlay, the refund counter, and the
undo journal. -/
structure StateDB where
  world : EvmState
  refund : Nat
  journal : List JournalEntry
deriving DecidableEq, Repr

/-- statedb.New: a fresh StateDB over the keeper state, with zero refund
counter and an empty journal. -/
def newStateDB (s : EvmState) : StateDB :=
  { world := s, refund := 0, journal := [] }

/-- Response assembled at the end of ApplySGXVMMessage. -/
structure MsgResponse where
  gasUsed : Nat
  vmError : String
  ret : Bytes
  logs : List SGXLog
deriving DecidableEq, Repr

/-- Outcome of ApplySGXVMMessage: a response, a returned Go error, or a
runtime panic. -/
inductive MsgOutcome
  | ok (resp : MsgResponse)
  | err (msg : String)
  | panic (msg : String)
deriving DecidableEq, Repr

/-- An enclave invocation (librustgo.HandleTx as seen from
ApplySGXVMMessage): given the leftover gas forwarded after the intrinsic
deduction and the StateDB the connector operates on, it returns either a
Go error or an execution result, together with the StateDB as mutated
through the connector callbacks. -/
abbrev Enclave := Nat → StateDB → (Except String ExecResult) × StateDB

/-- Tail of ApplySGXVMMessage after the enclave returns
(src/unnamed/part_001 lines 908-935): the gas-overflow guard compares the
original gas limit with the still-local leftover value, the refund is
computed with the EIP-3529 quotient and added to the (afterwards unused)
leftover variable, and the dirty StateDB is committed into the keeper
state exactly when the commit flag is set. -/
def applySGXVMMessageTail (gasLimit leftoverGas : Nat) (commit : Bool)
    (out : (Except String ExecResult) × StateDB) (s : EvmState) :
    MsgOutcome × EvmState :=
  match out.1 with
  | .error e => (.err e, s)
  | .ok res =>
      if gasLimit < leftoverGas then (.err "apply message: gas overflow", s)
      else
        let temporaryGasUsed := gasLimit - leftoverGas
        match GasToRefund out.2.refund temporaryGasUsed
            refundQuotientEIP3529 with
        | none => (.panic "runtime error: integer divide by zero", s)
        | some refund =>
            let _leftoverGas := leftoverGas + refund
            let finalState := if commit then out.2.world else s
            (.ok { gasUsed := res.gasUsed, vmError := res.vmError,
                   ret := res.ret, logs := res.logs }, finalState)

/-- Keeper.ApplySGXVMMessage (src/unnamed/part_001 lines 858-936): the
governance guards for disabled create/call, a fresh StateDB, the
intrinsic gas comparison failing the whole message before the enclave is
invoked, the subtraction of the intrinsic gas from the leftover gas
forwarded to the enclave, and the post-return tail. The intrinsic gas
value itself is a parameter (Keeper.GetEthIntrinsicGas is computed before
this point and its own failure path returns even earlier). -/
def ApplySGXVMMessage (enableCreate enableCall isCreate : Bool)
    (gasLimit intrinsicGas : Nat) (commit : Bool) (enclave : Enclave)
    (s : EvmState) : MsgOutcome × EvmState :=
  if !enableCreate && isCreate then
    (.err "failed to create new contract", s)
  else if !enableCall && !isCreate then
    (.err "failed to call contract", s)
  else
    let stateDB := newStateDB s
    if gasLimit < intrinsicGas then
      (.err "apply message: intrinsic gas too low", s)
    else
      let leftoverGas := gasLimit - intrinsicGas
      applySGXVMMessageTail gasLimit leftoverGas commit
        (enclave leftoverGas stateDB) s

/-- One mixing step of the executable stand-in for the keyed one-way
derivation used by the encryption-layer model below. -/
def mixByte (acc b : Nat) : Nat := (acc * 31 + b + 7) % 256

/-- Modelled from the spec: deoxys.DeriveEncryptionKey is not among the
extracted sources (only TestKeyDerivation in the deoxys package test
is). Spec 4.3: a deterministic keyed derivation; the same
(master_key, salt) pair always yields the same 32-byte key. -/
def DeriveEncryptionKey (masterKey salt : Bytes) : Bytes :=
  (List.range 32).map (fun i => (masterKey ++ salt).foldl mixByte (i + 3))

/-- Keystream of n bytes expanded from a derived key. -/
def keystream (key : Bytes) (n : Nat) : Bytes :=
  (List.range n).map (fun i => key.foldl mixByte i)

/-- Sixteen-byte authentication tag over key and ciphertext body. -/
def authTag (key body : Bytes) : Bytes :=
  (List.range 16).map (fun i => (key ++ body).foldl mixByte (i + 1))

/-- Modelled from the spec: deoxys.EncryptState is not among the
extracted sources (only TestStateEncryption is). Spec 4.3: authenticated
encryption of a storage value under the key derived from the master key
and the contract-address salt; modelled as the value masked with a
key-dependent keystream followed by an authentication tag. -/
def EncryptState (masterKey salt value : Bytes) : Bytes :=
  let key := DeriveEncryptionKey masterKey salt
  let body := List.zipWith (· ^^^ ·) value (keystream key value.length)
  body ++ authTag key body

/-- Modelled from the spec: deoxys.DecryptState is not among the
extracted sources (only TestStateEncryption is). Spec 4.3: decryption
fails closed with an explicit error on any ciphertext whose
authentication tag does not verify under the derived key, and otherwise
unmasks the body. -/
def DecryptState (masterKey salt ciphertext : Bytes) :
    Except String Bytes :=
  let key := DeriveEncryptionKey masterKey salt
  if ciphertext.length < 16 then .error "ciphertext too short"
  else
    let body := ciphertext.take (ciphertext.length - 16)
    let tag := ciphertext.drop (ciphertext.length - 16)
    if tag = authTag key body then
      .ok (List.zipWith (· ^^^ ·) body (keystream key body.length))
    else .error "authentication failed"

theorem zipWith_xor_cancel (ks : Bytes) :
    ∀ v : Bytes, v.length ≤ ks.length →
      List.zipWith (· ^^^ ·) (List.zipWith (· ^^^ ·) v ks) ks = v := by
  induction ks with
  | nil =>
      intro v hv
      simp at hv
      simp [hv]
  | cons k kt ih =>
      intro v hv
      cases v with
      | nil => simp
      | cons b bt =>
          simp only [List.zipWith]
          simp only [List.length_cons, Nat.succ_le_succ_iff] at hv
          rw [ih bt hv, Nat.xor_assoc, Nat.xor_self, Nat.xor_zero]

/-- Concrete account used by the closed evaluation theorems below. -/
def acct0 : Account := { nonce := 1, balance := 100, codeHash := some [7] }

/-- Concrete populated state used by the closed evaluation theorems. -/
def st0 : EvmState :=
  { accounts := [(1, acct0)], codeStore := [([7], [1, 2])],
    storage := [((1, 5), [9]), ((2, 6), [4])] }

/-- Concrete empty state used by the closed evaluation theorems. -/
def stEmpty : EvmState := { accounts := [], codeStore := [], storage := [] }

/-- Concrete stand-in for the keccak256 content hash in closed
evaluations. -/
def hash0 : Bytes → Bytes := fun code => 7 :: code

/-- Concrete block context for closed evaluations. -/
def ctx0 : ConnCtx :=
  { headerHash := [1, 2, 3], blockTime := 10, blockHeight := 4,
    chainId := 1291 }

/-- Concrete enclave double that succeeds without touching the StateDB. -/
def encl0 : Enclave :=
  fun _ db =>
    (.ok { gasUsed := 21000, ret := [], vmError := "", logs := [] }, db)

/-- Concrete always-failing post-processing hook (mirrors FailureHook of
x/evm/keeper/hooks_test.go). -/
def hookFail : EvmState → Except String EvmState :=
  fun _ => .error "post tx processing failed"

/-- Concrete log entry for closed evaluations. -/
def log0 : SGXLog := { address := 1, topics := [[3]], data := [2] }

/-- Concrete successful enclave result carrying one log. -/
def resOk : ExecResult :=
  { gasUsed := 21000, ret := [], vmError := "", logs := [log0] }

/-- Claim C3: for every accumulated refund, gas used and positive refund
quotient q, GasToRefund equals min(accumulated_refund, gas_used / q)
with integer division, and for q = 0 the call aborts (modelled as none)
before producing a value, instead of returning 0. -/
theorem gasToRefund_min_and_zero_quotient (a g q : Nat) (hq : 0 < q) :
    GasToRefund a g q = some (min a (g / q)) ∧ GasToRefund a g 0 = none := by
  refine ⟨?_, by simp [GasToRefund]⟩
  have hq' : q ≠ 0 := Nat.pos_iff_ne_zero.mp hq
  by_cases h : g / q > a
  · have hmin : min a (g / q) = a := Nat.min_eq_left (le_of_lt h)
    simp [GasToRefund, hq', h, hmin]
  · have hmin : min a (g / q) = g / q := Nat.min_eq_right (Nat.not_lt.mp h)
    simp [GasToRefund, hq', h, hmin]

/-- Witness for claim C3, matching the pinned test vectors of
TestGasToRefund: GasToRefund(10, 5, 1) = 5 and GasToRefund(10, ⬝, 0)
aborts. -/
theorem gasToRefund_min_and_zero_quotient_witness :
    GasToRefund 10 5 1 = some (min 10 (5 / 1)) ∧ GasToRefund 10 5 0 = none :=
  gasToRefund_min_and_zero_quotient 10 5 1 (by decide)

/-- Claim C4: a wire request that fails to decode, and a decoded envelope
whose tag is not among the catalogued variants, both make Connector.Query
return an error with no response payload (the fail outcome carries none)
and leave the state store untouched. -/
theorem query_unrecognized_fails_without_mutation (hash : Bytes → Bytes)
    (ctx : ConnCtx) (s : EvmState) :
    Connector.Query hash ctx s .unrecognized =
      (.fail "wrong query received", s) ∧
    Connector.Query hash ctx s .decodeFailure =
      (.fail "proto: cannot parse invalid wire-format data", s) :=
  ⟨rfl, rfl⟩

/-- Claim C6: for an address with no stored account the store lookup is
None rather than an error, and the Connector.GetAccount handler succeeds
with a response whose balance and nonce bytes are empty, which decode to
zero. -/
theorem getAccount_absent_returns_zero (s : EvmState) (addr : Nat)
    (h : Keeper.GetAccount s addr = none) :
    Connector.GetAccount s addr = (.ok (.getAccount [] []), s) ∧
    bytesToNat [] = 0 := by
  refine ⟨?_, rfl⟩
  simp [Connector.GetAccount, h]

/-- Witness for claim C6 at an address absent from the concrete empty
state. -/
theorem getAccount_absent_returns_zero_witness :
    Connector.GetAccount stEmpty 3 = (.ok (.getAccount [] []), stEmpty) ∧
    bytesToNat [] = 0 :=
  getAccount_absent_returns_zero stEmpty 3 (by decide)

/-- Claim C10: the Connector.BlockHash handler reads only the context
header hash, so two requests differing only in their Number field produce
the same response against the same context, and that response is the
current header hash. -/
theorem blockHash_ignores_requested_number (hash : Bytes → Bytes)
    (ctx : ConnCtx) (s : EvmState) (n₁ n₂ : Bytes) :
    Connector.Query hash ctx s (.req (.blockHash n₁)) =
      Connector.Query hash ctx s (.req (.blockHash n₂)) ∧
    Connector.Query hash ctx s (.req (.blockHash n₁)) =
      (.ok (.blockHash ctx.headerHash), s) :=
  ⟨rfl, rfl⟩

/-- Claim C2 counterexample: at the concrete input of an InsertAccountCode
request for address 1 (which has no account in the empty state) with code
bytes [1, 2, 3], the handler has already persisted the content-addressed
code blob when it reaches the existence check, so the call does perform a
partial write; moreover the missing-account path aborts with the Go
nil-interface conversion panic rather than reaching the explicit
account-does-not-exist error return. -/
theorem insertAccountCode_missing_partial_write_cex :
    Keeper.GetAccount stEmpty 1 = none ∧
    getKV ((Connector.InsertAccountCode hash0 stEmpty 1 [1, 2, 3]).2).codeStore
        (hash0 [1, 2, 3]) = some [1, 2, 3] ∧
    (Connector.InsertAccountCode hash0 stEmpty 1 [1, 2, 3]).1 =
      .panic "interface conversion: types.AccountI is nil" := by
  decide

/-- Claim C2 (amended): for every InsertAccountCode request whose address
has no existing account, the handler does not succeed — it aborts on the
nil-interface type assertion before the explicit account-does-not-exist
error return — and it persists no account-to-code-hash link (the account
table is unchanged), but the content-addressed code blob has already been
persisted before the existence check. -/
theorem insertAccountCode_missing_account (hash : Bytes → Bytes)
    (s : EvmState) (addr : Nat) (code : Bytes)
    (h : Keeper.GetAccount s addr = none) :
    Connector.InsertAccountCode hash s addr code =
      (.panic "interface conversion: types.AccountI is nil",
        Keeper.SetCode s (hash code) code) ∧
    ((Connector.InsertAccountCode hash s addr code).2).accounts =
      s.accounts ∧
    getKV ((Connector.InsertAccountCode hash s addr code).2).codeStore
        (hash code) = some code := by
  have h0 : getKV s.accounts addr = none := h
  refine ⟨?_, ?_, ?_⟩
  · simp [Connector.InsertAccountCode, Keeper.SetCode, h0]
  · simp [Connector.InsertAccountCode, Keeper.SetCode, h0]
  · simp [Connector.InsertAccountCode, Keeper.SetCode, h0, getKV_setKV_self]

/-- Witness for the amended claim C2 at a concrete missing address. -/
theorem insertAccountCode_missing_account_witness :
    Connector.InsertAccountCode hash0 stEmpty 2 [5] =
      (.panic "interface conversion: types.AccountI is nil",
        Keeper.SetCode stEmpty (hash0 [5]) [5]) ∧
    ((Connector.InsertAccountCode hash0 stEmpty 2 [5]).2).accounts =
      stEmpty.accounts ∧
    getKV ((Connector.InsertAccountCode hash0 stEmpty 2 [5]).2).codeStore
        (hash0 [5]) = some [5] :=
  insertAccountCode_missing_account hash0 stEmpty 2 [5] (by decide)

theorem getKV_filterFst_self {β : Type} (l : List ((Nat × Nat) × β))
    (a i : Nat) :
    getKV (l.filter (fun p => decide (p.1.1 ≠ a))) (a, i) = none := by
  induction l with
  | nil => simp [getKV]
  | cons h t ih =>
      obtain ⟨⟨a₀, i₀⟩, v₀⟩ := h
      by_cases ha : a₀ = a
      · simpa [ha] using ih
      · have : (a₀, i₀) ≠ (a, i) := by simp [ha]
        simpa [ha, getKV, this] using ih

theorem getKV_filterFst_ne {β : Type} (l : List ((Nat × Nat) × β))
    (a a' i : Nat) (hne : a' ≠ a) :
    getKV (l.filter (fun p => decide (p.1.1 ≠ a))) (a', i) =
      getKV l (a', i) := by
  induction l with
  | nil => simp
  | cons h t ih =>
      obtain ⟨⟨a₀, i₀⟩, v₀⟩ := h
      by_cases ha : a₀ = a
      · subst ha
        have : (a₀, i₀) ≠ (a', i) := by simp [Ne.symm hne]
        simpa [getKV, this] using ih
      · by_cases hk : (a₀, i₀) = (a', i)
        · simp [getKV, hk, hne]
        · simpa [ha, getKV, hk] using ih

theorem delKV_of_getKV_none {α β : Type} [DecidableEq α]
    (l : List (α × β)) (k : α) (h : getKV l k = none) : delKV l k = l := by
  induction l with
  | nil => simp [delKV]
  | cons hd t ih =>
      obtain ⟨k₀, v₀⟩ := hd
      by_cases hk : k₀ = k
      · simp [getKV, hk] at h
      · simp [getKV, hk] at h
        simp [delKV, hk]
        simpa [delKV] using ih h

/-- Claim C7: Connector.Remove (through Keeper.DeleteAccount) always
succeeds, removes the account record — and with it the balance, nonce and
code-hash link — and every storage cell of the address, leaves the
content-addressed code table and every other address untouched, and on an
address with no existing account leaves the account table unchanged
(no-op success). -/
theorem remove_destroys_account (s : EvmState) (addr : Nat) :
    (Connector.Remove s addr).1 = .ok .remove ∧
    Keeper.GetAccount (Connector.Remove s addr).2 addr = none ∧
    (∀ index : Nat,
      getKV ((Connector.Remove s addr).2).storage (addr, index) = none) ∧
    ((Connector.Remove s addr).2).codeStore = s.codeStore ∧
    (∀ addr' : Nat, addr' ≠ addr →
      Keeper.GetAccount (Connector.Remove s addr).2 addr' =
        Keeper.GetAccount s addr') ∧
    (∀ addr' index : Nat, addr' ≠ addr →
      getKV ((Connector.Remove s addr).2).storage (addr', index) =
        getKV s.storage (addr', index)) ∧
    (Keeper.GetAccount s addr = none →
      ((Connector.Remove s addr).2).accounts = s.accounts) := by
  refine ⟨rfl, ?_, ?_, rfl, ?_, ?_, ?_⟩
  · simpa [Connector.Remove, Keeper.DeleteAccount, Keeper.GetAccount]
      using getKV_delKV_self s.accounts addr
  · intro index
    simpa [Connector.Remove, Keeper.DeleteAccount]
      using getKV_filterFst_self s.storage addr index
  · intro addr' hne
    simpa [Connector.Remove, Keeper.DeleteAccount, Keeper.GetAccount]
      using getKV_delKV_ne s.accounts addr addr' hne
  · intro addr' index hne
    simpa [Connector.Remove, Keeper.DeleteAccount]
      using getKV_filterFst_ne s.storage addr addr' index hne
  · intro habs
    simpa [Connector.Remove, Keeper.DeleteAccount]
      using delKV_of_getKV_none s.accounts addr habs

/-- Witness for claim C7 on the concrete populated state: destroying
address 1 succeeds, erases its account and storage cell, and leaves
address 2 alone as well as the whole state on a second (missing-address)
destruction. -/
theorem remove_destroys_account_witness :
    (Connector.Remove st0 1).1 = .ok .remove ∧
    Keeper.GetAccount (Connector.Remove st0 1).2 1 = none ∧
    getKV ((Connector.Remove st0 1).2).storage (1, 5) = none ∧
    getKV ((Connector.Remove st0 1).2).storage (2, 6) =
      getKV st0.storage (2, 6) ∧
    ((Connector.Remove stEmpty 9).2).accounts = stEmpty.accounts :=
  ⟨(remove_destroys_account st0 1).1,
   (remove_destroys_account st0 1).2.1,
   (remove_destroys_account st0 1).2.2.1 5,
   (remove_destroys_account st0 1).2.2.2.2.2.1 2 6 (by decide),
   (remove_destroys_account stEmpty 9).2.2.2.2.2.2 (by decide)⟩

/-- Claim C8: an InsertAccount request for an address that already has an
account stores the requested balance and (uint64-truncated) nonce while
keeping the preexisting code hash untouched; the request itself carries no
code-hash field (see CosmosReq.insertAccount). -/
theorem insertAccount_preserves_codeHash (s : EvmState) (addr : Nat)
    (acct : Account) (balance nonce : Bytes)
    (h : Keeper.GetAccountWithoutBalance s addr = some acct) :
    Connector.InsertAccount s addr balance nonce =
      (.ok .insertAccount,
        { s with accounts := (setKV s.accounts addr
            { nonce := bytesToNat nonce % 2 ^ 64,
              balance := bytesToNat balance,
              codeHash := acct.codeHash }) }) ∧
    Keeper.GetAccount (Connector.InsertAccount s addr balance nonce).2
        addr =
      some { nonce := bytesToNat nonce % 2 ^ 64,
             balance := bytesToNat balance,
             codeHash := acct.codeHash } := by
  refine ⟨?_, ?_⟩
  · simp [Connector.InsertAccount, Keeper.SetAccount, h]
  · simp [Connector.InsertAccount, Keeper.SetAccount, Keeper.GetAccount, h,
      getKV_setKV_self]

/-- Witness for claim C8 on the concrete populated state: address 1 keeps
its stored code hash while balance and nonce take the requested values. -/
theorem insertAccount_preserves_codeHash_witness :
    Keeper.GetAccount (Connector.InsertAccount st0 1 [2] [3]).2 1 =
      some { nonce := bytesToNat [3] % 2 ^ 64,
             balance := bytesToNat [2],
             codeHash := acct0.codeHash } :=
  (insertAccount_preserves_codeHash st0 1 acct0 [2] [3] (by decide)).2

/-- Claim C5: with the governance guards passing, a message whose gas
limit is strictly below the intrinsic gas makes ApplySGXVMMessage fail
with the intrinsic-gas error before the enclave is invoked — the outcome
does not depend on the enclave at all and the keeper state is returned
unchanged, the freshly created StateDB having an empty journal — while
with sufficient gas the enclave is dispatched with exactly the intrinsic
gas subtracted from the leftover gas. -/
theorem applySGXVMMessage_intrinsic_gas_check
    (enableCreate enableCall isCreate commit : Bool)
    (gasLimit intrinsicGas : Nat) (enclave : Enclave) (s : EvmState)
    (hguard : (if isCreate then enableCreate else enableCall) = true) :
    (gasLimit < intrinsicGas →
      ApplySGXVMMessage enableCreate enableCall isCreate gasLimit
          intrinsicGas commit enclave s =
        (.err "apply message: intrinsic gas too low", s) ∧
      ∀ enclave' : Enclave,
        ApplySGXVMMessage enableCreate enableCall isCreate gasLimit
            intrinsicGas commit enclave' s =
          ApplySGXVMMessage enableCreate enableCall isCreate gasLimit
            intrinsicGas commit enclave s) ∧
    (intrinsicGas ≤ gasLimit →
      ApplySGXVMMessage enableCreate enableCall isCreate gasLimit
          intrinsicGas commit enclave s =
        applySGXVMMessageTail gasLimit (gasLimit - intrinsicGas) commit
          (enclave (gasLimit - intrinsicGas) (newStateDB s)) s) ∧
    (newStateDB s).journal = [] := by
  cases isCreate with
  | true =>
      simp at hguard
      subst hguard
      refine ⟨?_, ?_, rfl⟩
      · intro hlt
        constructor
        · simp [ApplySGXVMMessage, hlt]
        · intro enclave'
          simp [ApplySGXVMMessage, hlt]
      · intro hge
        simp [ApplySGXVMMessage, Nat.not_lt.mpr hge]
  | false =>
      simp at hguard
      subst hguard
      refine ⟨?_, ?_, rfl⟩
      · intro hlt
        constructor
        · simp [ApplySGXVMMessage, hlt]
        · intro enclave'
          simp [ApplySGXVMMessage, hlt]
      · intro hge
        simp [ApplySGXVMMessage, Nat.not_lt.mpr hge]

/-- Witness for claim C5: a call-type message with gas limit 5 below an
intrinsic gas of 10 fails with the intrinsic-gas error and leaves the
concrete state untouched. -/
theorem applySGXVMMessage_intrinsic_gas_check_witness :
    ApplySGXVMMessage true true false 5 10 true encl0 stEmpty =
      (.err "apply message: intrinsic gas too low", stEmpty) :=
  ((applySGXVMMessage_intrinsic_gas_check true true false true 5 10 encl0
      stEmpty (by decide)).1 (by decide)).1

/-- Claim C9: decrypting the ciphertext produced by encrypting a 32-byte
storage value under the key derived from a master key and salt recovers
exactly that value. -/
theorem stateEncryption_roundTrip (masterKey salt value : Bytes)
    (hlen : value.length = 32) :
    DecryptState masterKey salt (EncryptState masterKey salt value) =
      .ok value := by
  set key := DeriveEncryptionKey masterKey salt with hkeydef
  set ks := keystream key value.length with hksdef
  set body := List.zipWith (· ^^^ ·) value ks with hbodydef
  set tag := authTag key body with htagdef
  have hks : ks.length = value.length := by
    simp [hksdef, keystream]
  have hbl : body.length = value.length := by
    simp [hbodydef, hks]
  have htl : tag.length = 16 := by
    simp [htagdef, authTag]
  have hE : EncryptState masterKey salt value = body ++ tag := rfl
  rw [hE]
  have hct : (body ++ tag).length = value.length + 16 := by
    simp [hbl, htl]
  simp only [DecryptState]
  rw [hct]
  have hnl : ¬value.length + 16 < 16 := by omega
  rw [if_neg hnl]
  have hsub : value.length + 16 - 16 = body.length := by omega
  rw [hsub, List.take_left, List.drop_left]
  rw [if_pos rfl, hbl, ← hksdef]
  rw [hbodydef]
  exact congrArg Except.ok (zipWith_xor_cancel ks value (le_of_eq hks.symm))

/-- Witness for claim C9 at the concrete all-zero 32-byte value, key and
salt of TestStateEncryption. -/
theorem stateEncryption_roundTrip_witness :
    DecryptState (List.replicate 32 0) (List.replicate 20 0)
        (EncryptState (List.replicate 32 0) (List.replicate 20 0)
          (List.replicate 32 0)) =
      .ok (List.replicate 32 0) :=
  stateEncryption_roundTrip (List.replicate 32 0) (List.replicate 20 0)
    (List.replicate 32 0) (by simp)

/-- Claim C1, evaluated at the failing input: in the ApplySGXVMTransaction
variant embedded in x/evm/statedb/state_object.go (lines 288-305), an
enclave result with an empty VmError (a successful VM execution) and one
log, together with a present and always-failing post-processing hook,
leaves the hook uninvoked, the response unmarked (VmError still empty, so
not the generic post-processing error) and the logs intact, because the
guard in front of the hook call reads res.VmError != "" — hooks would run
exactly when the VM did report an error — contradicting both the claim and
the comment above that guard in the source. -/
theorem hooksLegacy_skips_hooks_on_success :
    ApplySGXVMTransactionHooksLegacy (some hookFail) resOk stEmpty st0 =
      (resOk, stEmpty, false) ∧
    resOk.vmError = "" ∧
    resOk.logs ≠ [] ∧
    resOk.vmError ≠ errPostTxProcessing := by
  refine ⟨?_, rfl, by decide, by decide⟩
  rfl

/-- The sibling pipeline variant of src/unnamed/part_001 (lines 816-833)
does behave as the specification describes: PostTxProcessing runs exactly
when the enclave result reports no VM error, and a failing hook discards
the whole cache context (the durable state stays at its pre-dispatch
value), records the generic post-processing error and clears the logs. -/
theorem hooks_variant_matches_spec
    (hookFn : EvmState → Except String EvmState) (res : ExecResult)
    (base tmpAfterVM : EvmState) :
    ((ApplySGXVMTransactionHooks (some hookFn) res base tmpAfterVM).2.2 =
      !res.Failed) ∧
    (res.Failed = false → ∀ e, hookFn tmpAfterVM = .error e →
      ApplySGXVMTransactionHooks (some hookFn) res base tmpAfterVM =
        ({ res with vmError := errPostTxProcessing, logs := [] }, base,
          true)) := by
  constructor
  · by_cases hf : res.Failed
    · simp [ApplySGXVMTransactionHooks, hf]
    · simp only [Bool.not_eq_true] at hf
      simp only [ApplySGXVMTransactionHooks, hf]
      cases hookFn tmpAfterVM <;> simp [hf]
  · intro hf e he
    simp [ApplySGXVMTransactionHooks, hf, he]
